import Mathlib

/-!
Verification of the exam-session core of the `oca-test` repository.

The whole observable logic lives in `src/src/App.tsx`.  This file gives a
shallow embedding of that logic:

* the data model (`AnswerOption`, `Question`, `ExamSet`) mirrors the
  TypeScript interfaces (the source interface named `Option` is renamed
  `AnswerOption` because `Option` is taken by Lean's core library);
* the React component state (`currentExam`, `currentQuestionIdx`,
  `userAnswers`, `timeElapsed`, `isReviewMode`) becomes the `Session`
  structure; the `view` routing string is not part of the session core
  (the spec keeps it outside the component) and a live session always has
  a non-null `currentExam`, so that field is total here;
* the JavaScript object `userAnswers : Record<number, string[]>` becomes an
  association list `List (Nat × List String)`; `prev[qId]` is first-match
  lookup, the spread `{ ...prev, [qId]: v }` replaces the entry in place
  when the key is present and otherwise adds a fresh entry, and the
  destructuring `const { [qId]: _, ...rest } = prev` drops the entry;
* each event handler becomes a pure function `Session → ... → Session`;
  `window.confirm` becomes an explicit callback `String → Bool`;
* the timer `useEffect` installs the 1-second interval only while the exam
  view is shown with `isReviewMode = false`, so a delivered tick is modelled
  by `tick`, which is the identity when `isReviewMode = true`;
* JavaScript numbers on the values that occur here (small naturals, and
  `Math.round` of a quotient of small naturals) are modelled by exact
  arithmetic over `Nat`/`Rat`; `Math.round x` for the non-negative `x`
  arising here is `⌊x + 1/2⌋`.
-/

/-- Source interface `Option` from `App.tsx` (renamed: `Option` is a core
Lean type). -/
structure AnswerOption where
  id : String
  text : String
deriving DecidableEq

/-- Question type tag, source union `'single' | 'multiple'`. -/
inductive QType where
  | single
  | multiple
deriving DecidableEq

/-- Source interface `Question`. -/
structure Question where
  id : Nat
  qtype : QType
  questionText : String
  codeSnippet : Option String
  options : List AnswerOption
  correctAnswers : List String
  explanation : String
deriving DecidableEq

/-- Source interface `ExamSet`. -/
structure ExamSet where
  id : Nat
  name : String
  description : String
  questions : List Question
  durationMinutes : Nat
deriving DecidableEq

/-- `String.prototype.padStart(2, '0')`: pad on the left with `'0'` until the
length is at least 2. -/
def padStart2 (s : String) : String :=
  if 2 ≤ s.length then s else String.mk (List.replicate (2 - s.length) '0') ++ s

/-- Source `formatTime` from `App.tsx`:
`h = ⌊seconds / 3600⌋`, `m = ⌊(seconds % 3600) / 60⌋`, `s = seconds % 60`;
`h:mm:ss` when `h > 0`, otherwise `mm:ss`, minutes and seconds padded. -/
def formatTime (seconds : Nat) : String :=
  let h := seconds / 3600
  let m := (seconds % 3600) / 60
  let s := seconds % 60
  if h > 0 then
    toString h ++ ":" ++ padStart2 (toString m) ++ ":" ++ padStart2 (toString s)
  else
    padStart2 (toString m) ++ ":" ++ padStart2 (toString s)

/-- Two-digit zero-padded decimal rendering of `n < 100`, written from the
spec's words ("zero-padded to two digits per field"). -/
def twoDigit (n : Nat) : String :=
  (if n < 10 then "0" else "") ++ toString n

/-- Modelled from the spec: "elapsed seconds are rendered as `H:MM:SS` when
≥ 1 hour elapsed, else `MM:SS`", with minute and second fields zero-padded
to two digits (the hour field is rendered bare, as the spec's own example
`formatTime(3661) == "1:01:01"` shows). -/
def formatTimeSpec (seconds : Nat) : String :=
  if 3600 ≤ seconds then
    toString (seconds / 3600) ++ ":" ++ twoDigit (seconds / 60 % 60) ++ ":"
      ++ twoDigit (seconds % 60)
  else
    twoDigit (seconds / 60) ++ ":" ++ twoDigit (seconds % 60)

theorem padStart2_toString_eq_twoDigit : ∀ n < 60, padStart2 (toString n) = twoDigit n := by
  decide

/-- The React component state that constitutes one session, from `App.tsx`. -/
structure Session where
  currentExam : ExamSet
  currentQuestionIdx : Nat
  userAnswers : List (Nat × List String)
  timeElapsed : Nat
  isReviewMode : Bool
deriving DecidableEq

/-- `prev[qId]`: first-match lookup in the answers object. -/
def lookupAns (m : List (Nat × List String)) (q : Nat) : Option (List String) :=
  List.lookup q m

/-- `{ ...prev, [qId]: v }`: replace the entry for key `q` in place when
present, otherwise add a fresh entry. -/
def setAns (m : List (Nat × List String)) (q : Nat) (v : List String) :
    List (Nat × List String) :=
  if m.any (fun p => p.1 == q) then
    m.map (fun p => if p.1 = q then (q, v) else p)
  else
    m ++ [(q, v)]

/-- `const { [qId]: _, ...rest } = prev`: drop the entry for key `q`. -/
def removeAns (m : List (Nat × List String)) (q : Nat) :
    List (Nat × List String) :=
  m.filter (fun p => p.1 != q)

/-- Source `handleStartExam`: fresh session at index 0, no answers, zero
elapsed time, review mode off. -/
def handleStartExam (exam : ExamSet) : Session :=
  { currentExam := exam
    currentQuestionIdx := 0
    userAnswers := []
    timeElapsed := 0
    isReviewMode := false }

/-- Source `handleOptionSelect` from `App.tsx`.  Returns the session
unchanged in review mode; for `single` stores the singleton `[optionId]`;
for `multiple` toggles membership, dropping the entry when the filtered
selection is empty. -/
def handleOptionSelect (s : Session) (qId : Nat) (optionId : String)
    (t : QType) : Session :=
  if s.isReviewMode then s
  else
    let prev := s.userAnswers
    let currentSelected := (lookupAns prev qId).getD []
    match t with
    | QType.single => { s with userAnswers := setAns prev qId [optionId] }
    | QType.multiple =>
      if currentSelected.contains optionId then
        let newSelection := currentSelected.filter (fun i => i != optionId)
        if newSelection.length = 0 then
          { s with userAnswers := removeAns prev qId }
        else
          { s with userAnswers := setAns prev qId newSelection }
      else
        { s with userAnswers := setAns prev qId (currentSelected ++ [optionId]) }

/-- Source `getQuestionStatus` result record. -/
structure QStatus where
  isCorrect : Bool
  isSkipped : Bool
  isAnswered : Bool
deriving DecidableEq

/-- Source `getQuestionStatus` from `App.tsx`, with the component state
`userAnswers` passed explicitly. -/
def getQuestionStatus (answers : List (Nat × List String)) (q : Question) :
    QStatus :=
  let userAnswer := (lookupAns answers q.id).getD []
  let isCorrect := q.correctAnswers.length == userAnswer.length &&
    q.correctAnswers.all (fun ans => userAnswer.contains ans)
  let isSkipped := userAnswer.length == 0
  { isCorrect := isCorrect, isSkipped := isSkipped, isAnswered := !isSkipped }

/-- `Math.round` on the non-negative rationals that occur here: round half
up, `⌊x + 1/2⌋`. -/
def jsRound (x : ℚ) : ℤ := ⌊x + 1 / 2⌋

/-- `totalQ` of the result view: `currentExam.questions.length`. -/
def resultTotal (s : Session) : Nat := s.currentExam.questions.length

/-- `correctCount` of the result view: questions whose status is correct. -/
def resultCorrectCount (s : Session) : Nat :=
  (s.currentExam.questions.filter
    (fun q => (getQuestionStatus s.userAnswers q).isCorrect)).length

/-- `score` of the result view: `Math.round((correctCount / totalQ) * 100)`. -/
def resultScore (s : Session) : ℤ :=
  jsRound ((resultCorrectCount s : ℚ) / (resultTotal s : ℚ) * 100)

/-- Confirmation message when not all questions are answered. -/
def submitMsgPartial (answeredCount total : Nat) : String :=
  "You have answered " ++ toString answeredCount ++ "/" ++ toString total
    ++ " questions. Submit now?"

/-- Confirmation message when every question is answered. -/
def submitMsgFull : String := "Confirm submission?"

/-- The message `handleSubmitExam` passes to `window.confirm`:
`answeredCount = Object.keys(userAnswers).length`. -/
def submitMessage (s : Session) : String :=
  let answeredCount := s.userAnswers.length
  let total := s.currentExam.questions.length
  if answeredCount < total then submitMsgPartial answeredCount total
  else submitMsgFull

/-- Source `handleSubmitExam` with `window.confirm` as an explicit callback:
ask for confirmation, then either leave the session unchanged or enter
review mode (the component also routes to the result view, which is outside
the session core). -/
def handleSubmitExam (confirm : String → Bool) (s : Session) : Session :=
  if confirm (submitMessage s) then { s with isReviewMode := true }
  else s

/-- Source `handleReviewQuestion` (the `goTo` of the spec): stores the given
index with no range check (the component also routes back to the exam
view). -/
def handleReviewQuestion (s : Session) (index : Nat) : Session :=
  { s with currentQuestionIdx := index }

/-- One delivered timer tick.  The `useEffect` installs the 1-second
interval, whose callback is `setTimeElapsed (prev => prev + 1)`, only while
the exam view is shown with `isReviewMode = false`, and clears it as soon as
that condition fails; so a tick delivered in review mode does not exist,
modelled as the identity. -/
def tick (s : Session) : Session :=
  if s.isReviewMode then s
  else { s with timeElapsed := s.timeElapsed + 1 }


theorem lookup_map_replace (q : Nat) (v : List String) :
    ∀ m : List (Nat × List String), (∃ p ∈ m, p.1 = q) →
      List.lookup q (m.map (fun p => if p.1 = q then (q, v) else p)) = some v := by
  intro m
  induction m with
  | nil => rintro ⟨p, hp, -⟩; cases hp
  | cons a as ih =>
    rintro ⟨p, hp, hpq⟩
    simp only [List.map_cons]
    by_cases ha : a.1 = q
    · rw [if_pos ha, List.lookup_cons_self]
    · rw [if_neg ha, List.lookup_cons]
      have hqa : (q == a.1) = false := by
        simp only [beq_eq_false_iff_ne, ne_eq]
        exact fun h => ha h.symm
      rw [hqa]
      apply ih
      rcases List.mem_cons.mp hp with rfl | hp
      · exact absurd hpq ha
      · exact ⟨p, hp, hpq⟩

theorem lookup_map_replace_ne (q q' : Nat) (v : List String) (hq : q' ≠ q) :
    ∀ m : List (Nat × List String),
      List.lookup q' (m.map (fun p => if p.1 = q then (q, v) else p))
        = List.lookup q' m := by
  intro m
  induction m with
  | nil => rfl
  | cons a as ih =>
    simp only [List.map_cons]
    by_cases ha : a.1 = q
    · rw [if_pos ha, List.lookup_cons, List.lookup_cons]
      have h1 : (q' == q) = false := by simpa using hq
      have h2 : (q' == a.1) = false := by
        simp only [beq_eq_false_iff_ne, ne_eq]
        exact fun h => hq (h.trans ha)
      rw [h1, h2]
      exact ih
    · rw [if_neg ha, List.lookup_cons, List.lookup_cons]
      cases hb : (q' == a.1) with
      | true => rfl
      | false => exact ih

theorem lookupAns_setAns_self (m : List (Nat × List String)) (q : Nat)
    (v : List String) : lookupAns (setAns m q v) q = some v := by
  unfold setAns lookupAns
  split
  · rename_i h
    simp only [List.any_eq_true, beq_iff_eq] at h
    exact lookup_map_replace q v m h
  · rename_i h
    rw [List.lookup_append]
    have hm : List.lookup q m = none := by
      rw [List.lookup_eq_none_iff]
      intro p hp
      simp only [List.any_eq_true, beq_iff_eq, not_exists] at h
      have hpq := h p
      simp only [hp, true_and] at hpq
      simp only [bne_iff_ne, ne_eq]
      exact fun hh => hpq hh.symm
    rw [hm, List.lookup_cons_self]
    rfl

theorem lookupAns_setAns_ne (m : List (Nat × List String)) (q q' : Nat)
    (v : List String) (hq : q' ≠ q) :
    lookupAns (setAns m q v) q' = lookupAns m q' := by
  unfold setAns lookupAns
  split
  · exact lookup_map_replace_ne q q' v hq m
  · rw [List.lookup_append]
    have h2 : List.lookup q' [(q, v)] = none := by
      rw [List.lookup_eq_none_iff]
      intro p hp
      simp only [List.mem_singleton] at hp
      subst hp
      simpa [bne_iff_ne] using hq
    rw [h2, Option.or_none]

theorem lookupAns_removeAns_self (m : List (Nat × List String)) (q : Nat) :
    lookupAns (removeAns m q) q = none := by
  unfold removeAns lookupAns
  rw [List.lookup_eq_none_iff]
  intro p hp
  have hne := (List.mem_filter.mp hp).2
  simp only [bne_iff_ne, ne_eq] at hne ⊢
  exact fun h => hne h.symm

theorem lookupAns_removeAns_ne (m : List (Nat × List String)) (q q' : Nat)
    (hq : q' ≠ q) : lookupAns (removeAns m q) q' = lookupAns m q' := by
  unfold removeAns lookupAns
  induction m with
  | nil => rfl
  | cons a as ih =>
    rw [List.filter_cons]
    by_cases ha : a.1 = q
    · have hcond : (a.1 != q) = false := by simpa using ha
      rw [hcond]
      simp only [Bool.false_eq_true, if_false]
      rw [List.lookup_cons]
      have h2 : (q' == a.1) = false := by
        simp only [beq_eq_false_iff_ne, ne_eq]
        exact fun h => hq (h.trans ha)
      rw [h2]
      exact ih
    · have hcond : (a.1 != q) = true := by simpa using ha
      rw [hcond]
      simp only [if_true]
      rw [List.lookup_cons, List.lookup_cons]
      cases hb : (q' == a.1) with
      | true => rfl
      | false => exact ih

/-- C8: `formatTime` renders at least one hour as `H:MM:SS` (hour bare,
minutes and seconds zero-padded to two digits) and below one hour as
`MM:SS`, matching the spec-side renderer, with the spec's two examples. -/
theorem formatTime_matches_spec :
    (∀ sec : Nat, formatTime sec = formatTimeSpec sec) ∧
    formatTime 65 = "01:05" ∧ formatTime 3661 = "1:01:01" := by
  refine ⟨?_, rfl, rfl⟩
  intro sec
  simp only [formatTime, formatTimeSpec]
  have hm : (sec % 3600) / 60 = sec / 60 % 60 := by
    have h36 : (3600 : ℕ) = 60 * 60 := by norm_num
    rw [h36, Nat.mod_mul_right_div_self]
  have hmlt : sec / 60 % 60 < 60 := Nat.mod_lt _ (by norm_num)
  have hslt : sec % 60 < 60 := Nat.mod_lt _ (by norm_num)
  have hpad1 := padStart2_toString_eq_twoDigit _ hmlt
  have hpad2 := padStart2_toString_eq_twoDigit _ hslt
  have hiff : sec / 3600 > 0 ↔ 3600 ≤ sec := Nat.div_pos_iff (by norm_num)
  by_cases h : 3600 ≤ sec
  · rw [if_pos (hiff.mpr h), if_pos h, hm, hpad1, hpad2]
  · rw [if_neg (fun hpos => h (hiff.mp hpos)), if_neg h, hm, hpad1, hpad2]
    have hdiv : sec / 60 % 60 = sec / 60 :=
      Nat.mod_eq_of_lt (Nat.div_lt_of_lt_mul (by omega))
    rw [hdiv]

/-- Concrete option used to instantiate theorems. -/
def optA : AnswerOption := { id := "A", text := "alpha" }

/-- Concrete option used to instantiate theorems. -/
def optB : AnswerOption := { id := "B", text := "beta" }

/-- Concrete option used to instantiate theorems. -/
def optC : AnswerOption := { id := "C", text := "gamma" }

/-- Concrete single-select question (the spec's worked example Q1). -/
def q1 : Question :=
  { id := 1
    qtype := QType.single
    questionText := "Q1"
    codeSnippet := none
    options := [optA, optB]
    correctAnswers := ["B"]
    explanation := "E1" }

/-- Concrete multi-select question (the spec's worked example Q2). -/
def q2 : Question :=
  { id := 2
    qtype := QType.multiple
    questionText := "Q2"
    codeSnippet := none
    options := [optA, optB, optC]
    correctAnswers := ["A", "C"]
    explanation := "E2" }

/-- Concrete two-question exam set used to instantiate theorems. -/
def exam2 : ExamSet :=
  { id := 1
    name := "Set 1"
    description := "demo"
    questions := [q1, q2]
    durationMinutes := 30 }

/-- A fresh active session over `exam2`. -/
def sessionEx : Session := handleStartExam exam2

/-- A review-mode session over `exam2`. -/
def sessionRevEx : Session := { sessionEx with isReviewMode := true }

/-- C5: while the session is in review mode, `selectOption` is a no-op:
the session, and in particular its `userAnswers` mapping, is returned
unchanged. -/
theorem handleOptionSelect_review_noop (s : Session) (qId : Nat)
    (optionId : String) (t : QType) (h : s.isReviewMode = true) :
    handleOptionSelect s qId optionId t = s ∧
    (handleOptionSelect s qId optionId t).userAnswers = s.userAnswers := by
  have heq : handleOptionSelect s qId optionId t = s := by
    unfold handleOptionSelect
    rw [if_pos h]
  exact ⟨heq, by rw [heq]⟩

/-- Witness for C5 at a concrete review-mode session. -/
theorem handleOptionSelect_review_noop_witness :
    sessionRevEx.isReviewMode = true ∧
    handleOptionSelect sessionRevEx 1 "A" QType.single = sessionRevEx :=
  ⟨rfl, (handleOptionSelect_review_noop sessionRevEx 1 "A" QType.single rfl).1⟩

theorem tick_isReviewMode (s : Session) : (tick s).isReviewMode = s.isReviewMode := by
  unfold tick
  split <;> rfl

theorem tick_iterate_isReviewMode (s : Session) (n : Nat) :
    (tick^[n] s).isReviewMode = s.isReviewMode := by
  induction n with
  | zero => rfl
  | succ k ih => rw [Function.iterate_succ_apply', tick_isReviewMode, ih]

theorem tick_active (s : Session) (h : s.isReviewMode = false) :
    tick s = { s with timeElapsed := s.timeElapsed + 1 } := by
  unfold tick
  rw [if_neg (by simp [h])]

/-- C6: while active, each `tick` adds exactly 1 to `timeElapsed` and
changes nothing else, so `n` ticks add exactly `n`; in review mode the
timer is torn down, so a delivered tick is the identity. -/
theorem tick_spec (s : Session) (n : Nat) :
    (s.isReviewMode = false →
      tick s = { s with timeElapsed := s.timeElapsed + 1 }) ∧
    (s.isReviewMode = false →
      (tick^[n] s).timeElapsed = s.timeElapsed + n) ∧
    (s.isReviewMode = true → tick s = s) := by
  refine ⟨fun h => tick_active s h, ?_, ?_⟩
  · intro h
    induction n with
    | zero => rfl
    | succ k ih =>
      rw [Function.iterate_succ_apply',
        tick_active _ ((tick_iterate_isReviewMode s k).trans h)]
      show (tick^[k] s).timeElapsed + 1 = s.timeElapsed + (k + 1)
      rw [ih, Nat.add_assoc]
  · intro h
    unfold tick
    rw [if_pos h]

/-- Witness for C6: three ticks on a fresh active session take the elapsed
time from 0 to 3, and a tick on a review-mode session changes nothing. -/
theorem tick_spec_witness :
    sessionEx.isReviewMode = false ∧
    (tick^[3] sessionEx).timeElapsed = sessionEx.timeElapsed + 3 ∧
    sessionRevEx.isReviewMode = true ∧
    tick sessionRevEx = sessionRevEx :=
  ⟨rfl, (tick_spec sessionEx 3).2.1 rfl, rfl, (tick_spec sessionRevEx 0).2.2 rfl⟩

/-- C9 counterexample: `goTo` does not fail fast on an out-of-range index.
On a fresh session over the two-question `exam2`, jumping to index 99
stores 99 (a value outside `[0, 2)`) and produces a changed session, so
the out-of-range index is accepted unchecked rather than rejected. -/
theorem handleReviewQuestion_cex :
    (handleReviewQuestion (handleStartExam exam2) 99).currentQuestionIdx = 99 ∧
    ¬ ((handleReviewQuestion (handleStartExam exam2) 99).currentQuestionIdx
        < (handleStartExam exam2).currentExam.questions.length) ∧
    handleReviewQuestion (handleStartExam exam2) 99 ≠ handleStartExam exam2 := by
  refine ⟨rfl, by decide, by decide⟩

/-- C9 (amended): `goTo` performs no range check at all: it stores the
given index unchanged — even when the index is outside
`[0, number of questions)` — and leaves every other session field
unchanged, silently accepting the contract violation. -/
theorem handleReviewQuestion_unchecked (s : Session) (index : Nat) :
    (handleReviewQuestion s index).currentQuestionIdx = index ∧
    (handleReviewQuestion s index).currentExam = s.currentExam ∧
    (handleReviewQuestion s index).userAnswers = s.userAnswers ∧
    (handleReviewQuestion s index).timeElapsed = s.timeElapsed ∧
    (handleReviewQuestion s index).isReviewMode = s.isReviewMode :=
  ⟨rfl, rfl, rfl, rfl, rfl⟩

theorem submitMsgPartial_ne_full (a t : Nat) :
    submitMsgPartial a t ≠ submitMsgFull := by
  intro h
  have hY : (submitMsgPartial a t).data.head? = some 'Y' := rfl
  have hC : submitMsgFull.data.head? = some 'C' := rfl
  rw [h, hC] at hY
  exact absurd (Option.some.inj hY) (by decide)

/-- C7: for an active session, `submit` consults the confirmation callback,
with the partial-answers message when the answered count is below the
total and the distinct fully-answered message otherwise; a `false` answer
makes `submit` a no-op with the mode still active, a `true` answer moves
the mode to review. -/
theorem handleSubmitExam_spec (s : Session) (confirm : String → Bool)
    (hact : s.isReviewMode = false) :
    (s.userAnswers.length < s.currentExam.questions.length →
      submitMessage s
        = submitMsgPartial s.userAnswers.length s.currentExam.questions.length) ∧
    (¬ s.userAnswers.length < s.currentExam.questions.length →
      submitMessage s = submitMsgFull) ∧
    (∀ a t : Nat, submitMsgPartial a t ≠ submitMsgFull) ∧
    (confirm (submitMessage s) = false →
      handleSubmitExam confirm s = s ∧
      (handleSubmitExam confirm s).isReviewMode = false) ∧
    (confirm (submitMessage s) = true →
      (handleSubmitExam confirm s).isReviewMode = true) := by
  refine ⟨?_, ?_, submitMsgPartial_ne_full, ?_, ?_⟩
  · intro h
    unfold submitMessage
    rw [if_pos h]
  · intro h
    unfold submitMessage
    rw [if_neg h]
  · intro h
    have heq : handleSubmitExam confirm s = s := by
      unfold handleSubmitExam
      rw [if_neg (by simp [h])]
    exact ⟨heq, by rw [heq]; exact hact⟩
  · intro h
    unfold handleSubmitExam
    rw [if_pos h]

/-- Witness for C7: on a fresh (unanswered) active session over `exam2`,
the partial message is used, a refusing callback leaves the session
unchanged, and an accepting callback enters review mode. -/
theorem handleSubmitExam_spec_witness :
    sessionEx.isReviewMode = false ∧
    sessionEx.userAnswers.length < sessionEx.currentExam.questions.length ∧
    submitMessage sessionEx = submitMsgPartial 0 2 ∧
    handleSubmitExam (fun _ => false) sessionEx = sessionEx ∧
    (handleSubmitExam (fun _ => true) sessionEx).isReviewMode = true := by
  refine ⟨rfl, by decide, ?_, ?_, ?_⟩
  · exact (handleSubmitExam_spec sessionEx (fun _ => false) rfl).1 (by decide)
  · exact ((handleSubmitExam_spec sessionEx (fun _ => false) rfl).2.2.2.1 rfl).1
  · exact (handleSubmitExam_spec sessionEx (fun _ => true) rfl).2.2.2.2 rfl

/-- C2: the result-view score has `total` the number of questions,
`correctCount` the number of questions evaluated correct, and percentage
`round(100 * correctCount / total)`, always between 0 and 100. -/
theorem resultScore_spec (s : Session) (h : 1 ≤ resultTotal s) :
    resultTotal s = s.currentExam.questions.length ∧
    resultCorrectCount s = s.currentExam.questions.countP
      (fun q => (getQuestionStatus s.userAnswers q).isCorrect) ∧
    resultScore s
      = jsRound (100 * (resultCorrectCount s : ℚ) / (resultTotal s : ℚ)) ∧
    0 ≤ resultScore s ∧ resultScore s ≤ 100 := by
  have hcount : resultCorrectCount s = s.currentExam.questions.countP
      (fun q => (getQuestionStatus s.userAnswers q).isCorrect) :=
    (List.countP_eq_length_filter _ _).symm
  have hle : resultCorrectCount s ≤ resultTotal s :=
    List.length_filter_le _ _
  have htpos : (0 : ℚ) < (resultTotal s : ℚ) := by
    exact_mod_cast Nat.lt_of_lt_of_le Nat.zero_lt_one h
  have hcnn : (0 : ℚ) ≤ (resultCorrectCount s : ℚ) := by positivity
  have hx0 : (0 : ℚ) ≤ (resultCorrectCount s : ℚ) / (resultTotal s : ℚ) * 100 :=
    mul_nonneg (div_nonneg hcnn (le_of_lt htpos)) (by norm_num)
  have hx1 : (resultCorrectCount s : ℚ) / (resultTotal s : ℚ) ≤ 1 :=
    div_le_one_of_le₀ (by exact_mod_cast hle) (le_of_lt htpos)
  have hx100 : (resultCorrectCount s : ℚ) / (resultTotal s : ℚ) * 100 ≤ 100 := by
    calc (resultCorrectCount s : ℚ) / (resultTotal s : ℚ) * 100
        ≤ 1 * 100 := mul_le_mul_of_nonneg_right hx1 (by norm_num)
      _ = 100 := by norm_num
  refine ⟨rfl, hcount, ?_, ?_, ?_⟩
  · unfold resultScore
    congr 1
    ring
  · unfold resultScore jsRound
    exact Int.le_floor.mpr (by push_cast; linarith)
  · unfold resultScore jsRound
    have hlt : (resultCorrectCount s : ℚ) / (resultTotal s : ℚ) * 100 + 1 / 2
        < ((100 + 1 : ℤ) : ℚ) := by push_cast; linarith
    exact Int.lt_add_one_iff.mp (Int.floor_lt.mpr hlt)

/-- Witness for C2 on a fresh session over the two-question `exam2`. -/
theorem resultScore_spec_witness :
    1 ≤ resultTotal sessionEx ∧
    0 ≤ resultScore sessionEx ∧ resultScore sessionEx ≤ 100 :=
  ⟨by decide, (resultScore_spec sessionEx (by decide)).2.2.2.1,
    (resultScore_spec sessionEx (by decide)).2.2.2.2⟩

theorem getQuestionStatus_perm_congr (q : Question)
    (answers answers' : List (Nat × List String))
    (hperm : ((lookupAns answers' q.id).getD []).Perm
      ((lookupAns answers q.id).getD [])) :
    getQuestionStatus answers' q = getQuestionStatus answers q := by
  unfold getQuestionStatus
  have hlen := hperm.length_eq
  have hmem : ∀ x : String,
      x ∈ (lookupAns answers' q.id).getD [] ↔
        x ∈ (lookupAns answers q.id).getD [] := fun x => hperm.mem_iff
  have hskip : (((lookupAns answers' q.id).getD []).length == 0)
      = (((lookupAns answers q.id).getD []).length == 0) := by rw [hlen]
  have hcorr : (q.correctAnswers.length == ((lookupAns answers' q.id).getD []).length &&
        q.correctAnswers.all (fun ans => ((lookupAns answers' q.id).getD []).contains ans))
      = (q.correctAnswers.length == ((lookupAns answers q.id).getD []).length &&
        q.correctAnswers.all (fun ans => ((lookupAns answers q.id).getD []).contains ans)) := by
    rw [hlen]
    rw [Bool.eq_iff_iff]
    simp only [Bool.and_eq_true, List.all_eq_true, List.contains_iff_exists_mem_beq,
      beq_iff_eq]
    constructor
    · rintro ⟨h1, h2⟩
      refine ⟨h1, fun x hx => ?_⟩
      obtain ⟨y, hy, hxy⟩ := h2 x hx
      exact ⟨y, (hmem y).mp hy, hxy⟩
    · rintro ⟨h1, h2⟩
      refine ⟨h1, fun x hx => ?_⟩
      obtain ⟨y, hy, hxy⟩ := h2 x hx
      exact ⟨y, (hmem y).mpr hy, hxy⟩
  simp only [hskip, hcorr]

/-- C1: `getQuestionStatus` (the spec's `evaluate`) marks a question
skipped exactly when the stored answer is empty or absent, answered as the
negation of skipped, and correct exactly when the stored answer list and
`correctAnswers` contain the same elements (set equality), a condition
independent of the order in which options were selected. -/
theorem getQuestionStatus_spec (answers : List (Nat × List String))
    (q : Question) (hq : q.correctAnswers.Nodup)
    (ha : ∀ l, lookupAns answers q.id = some l → l.Nodup) :
    ((getQuestionStatus answers q).isSkipped = true ↔
      (lookupAns answers q.id = none ∨ lookupAns answers q.id = some [])) ∧
    (getQuestionStatus answers q).isAnswered
      = !(getQuestionStatus answers q).isSkipped ∧
    ((getQuestionStatus answers q).isCorrect = true ↔
      (∀ x : String,
        x ∈ (lookupAns answers q.id).getD [] ↔ x ∈ q.correctAnswers)) ∧
    (∀ answers' : List (Nat × List String),
      ((lookupAns answers' q.id).getD []).Perm
        ((lookupAns answers q.id).getD []) →
      getQuestionStatus answers' q = getQuestionStatus answers q) := by
  refine ⟨?_, rfl, ?_, fun answers' h => getQuestionStatus_perm_congr q _ _ h⟩
  · show (((lookupAns answers q.id).getD []).length == 0) = true ↔ _
    cases h : lookupAns answers q.id with
    | none => simp
    | some l => simp [List.length_eq_zero]
  · show (q.correctAnswers.length == ((lookupAns answers q.id).getD []).length &&
      q.correctAnswers.all
        (fun ans => ((lookupAns answers q.id).getD []).contains ans)) = true ↔ _
    have hua : ((lookupAns answers q.id).getD []).Nodup := by
      cases h : lookupAns answers q.id with
      | none => simp
      | some l => simpa using ha l h
    simp only [Bool.and_eq_true, beq_iff_eq, List.all_eq_true,
      List.elem_eq_mem, decide_eq_true_eq]
    constructor
    · rintro ⟨hlen, hsub⟩
      have hsubperm : q.correctAnswers.Subperm ((lookupAns answers q.id).getD []) :=
        hq.subperm hsub
      have hperm : q.correctAnswers.Perm ((lookupAns answers q.id).getD []) :=
        hsubperm.perm_of_length_le (le_of_eq hlen.symm)
      exact fun x => (hperm.mem_iff).symm
    · intro hmem
      have hperm : ((lookupAns answers q.id).getD []).Perm q.correctAnswers :=
        (List.perm_ext_iff_of_nodup hua hq).mpr hmem
      exact ⟨hperm.length_eq.symm, fun x hx => (hmem x).mpr hx⟩

/-- Witness for C1: for question `q2` with stored answer `["C", "A"]`, the
status is correct and agrees with set equality of the answer and
`correctAnswers = ["A", "C"]`. -/
theorem getQuestionStatus_spec_witness :
    q2.correctAnswers.Nodup ∧
    (getQuestionStatus [(2, ["C", "A"])] q2).isCorrect = true ∧
    (∀ x : String,
      x ∈ (lookupAns [(2, ["C", "A"])] q2.id).getD [] ↔ x ∈ q2.correctAnswers) := by
  have ha : ∀ l, lookupAns [(2, ["C", "A"])] q2.id = some l → l.Nodup := by
    intro l h
    have h2 : lookupAns [(2, ["C", "A"])] q2.id = some ["C", "A"] := rfl
    rw [h2] at h
    cases h
    decide
  refine ⟨by decide, by decide, ?_⟩
  exact (getQuestionStatus_spec [(2, ["C", "A"])] q2 (by decide) ha).2.2.1.mp
    (by decide)

theorem lookupAns_cases (m : List (Nat × List String)) (q : Nat) :
    lookupAns m q = none ∨ lookupAns m q = some ((lookupAns m q).getD []) := by
  cases h : lookupAns m q with
  | none => exact Or.inl rfl
  | some l => exact Or.inr rfl

theorem handleOptionSelect_isReviewMode (s : Session) (qId : Nat)
    (optId : String) (t : QType) :
    (handleOptionSelect s qId optId t).isReviewMode = s.isReviewMode := by
  unfold handleOptionSelect
  split
  · rfl
  · cases t
    · rfl
    · dsimp only
      split
      · split <;> rfl
      · rfl

theorem hos_mult_remove (s : Session) (qId : Nat) (optId : String)
    (hact : s.isReviewMode = false)
    (hmem : optId ∈ (lookupAns s.userAnswers qId).getD [])
    (hfil : ((lookupAns s.userAnswers qId).getD []).filter
      (fun i => i != optId) = []) :
    (handleOptionSelect s qId optId QType.multiple).userAnswers
      = removeAns s.userAnswers qId := by
  unfold handleOptionSelect
  rw [if_neg (by simp [hact])]
  dsimp only
  rw [if_pos (by simpa [List.elem_eq_mem] using hmem),
    if_pos (by rw [hfil]; rfl)]

theorem hos_mult_filter (s : Session) (qId : Nat) (optId : String)
    (hact : s.isReviewMode = false)
    (hmem : optId ∈ (lookupAns s.userAnswers qId).getD [])
    (hfil : ((lookupAns s.userAnswers qId).getD []).filter
      (fun i => i != optId) ≠ []) :
    (handleOptionSelect s qId optId QType.multiple).userAnswers
      = setAns s.userAnswers qId
          (((lookupAns s.userAnswers qId).getD []).filter
            (fun i => i != optId)) := by
  unfold handleOptionSelect
  rw [if_neg (by simp [hact])]
  dsimp only
  rw [if_pos (by simpa [List.elem_eq_mem] using hmem),
    if_neg (by simpa [List.length_eq_zero] using hfil)]

theorem hos_mult_append (s : Session) (qId : Nat) (optId : String)
    (hact : s.isReviewMode = false)
    (hmem : optId ∉ (lookupAns s.userAnswers qId).getD []) :
    (handleOptionSelect s qId optId QType.multiple).userAnswers
      = setAns s.userAnswers qId
          (((lookupAns s.userAnswers qId).getD []) ++ [optId]) := by
  unfold handleOptionSelect
  rw [if_neg (by simp [hact])]
  dsimp only
  rw [if_neg (by simpa [List.elem_eq_mem] using hmem)]

/-- C3: for an active session and a MULTIPLE question, `selectOption`
toggles membership of the given option in that question's stored answer
set, leaves every other question's entry unchanged, removes the mapping
entry exactly when the toggled set is empty, and applied twice in
succession returns the answers mapping to its prior state (as a mapping of
answer sets, the spec's data model for `answers`). -/
theorem handleOptionSelect_multiple_toggle (s : Session) (qId : Nat)
    (optId : String) (hact : s.isReviewMode = false)
    (hne : ∀ q l, lookupAns s.userAnswers q = some l → l ≠ []) :
    (optId ∈ (lookupAns (handleOptionSelect s qId optId
        QType.multiple).userAnswers qId).getD [] ↔
      optId ∉ (lookupAns s.userAnswers qId).getD []) ∧
    (∀ o : String, o ≠ optId →
      (o ∈ (lookupAns (handleOptionSelect s qId optId
          QType.multiple).userAnswers qId).getD [] ↔
        o ∈ (lookupAns s.userAnswers qId).getD [])) ∧
    (∀ q : Nat, q ≠ qId →
      lookupAns (handleOptionSelect s qId optId QType.multiple).userAnswers q
        = lookupAns s.userAnswers q) ∧
    (lookupAns (handleOptionSelect s qId optId
        QType.multiple).userAnswers qId = none ↔
      (optId ∈ (lookupAns s.userAnswers qId).getD [] ∧
        ∀ o ∈ (lookupAns s.userAnswers qId).getD [], o = optId)) ∧
    (∀ q : Nat,
      (lookupAns (handleOptionSelect (handleOptionSelect s qId optId
          QType.multiple) qId optId QType.multiple).userAnswers q).map
            List.toFinset
        = (lookupAns s.userAnswers q).map List.toFinset) := by
  have hact1 : (handleOptionSelect s qId optId QType.multiple).isReviewMode
      = false := (handleOptionSelect_isReviewMode s qId optId _).trans hact
  by_cases hmem : optId ∈ (lookupAns s.userAnswers qId).getD []
  · have hsome : lookupAns s.userAnswers qId
        = some ((lookupAns s.userAnswers qId).getD []) := by
      rcases lookupAns_cases s.userAnswers qId with h | h
      · rw [h] at hmem ⊢
        cases hmem
      · exact h
    by_cases hfil : ((lookupAns s.userAnswers qId).getD []).filter
        (fun i => i != optId) = []
    · -- every stored element equals optId: the entry is removed
      have hall : ∀ o ∈ (lookupAns s.userAnswers qId).getD [], o = optId := by
        intro o ho
        have := List.filter_eq_nil_iff.mp hfil o ho
        simpa using this
      have h1 := hos_mult_remove s qId optId hact hmem hfil
      have hl1 : lookupAns (handleOptionSelect s qId optId
          QType.multiple).userAnswers qId = none := by
        rw [h1]; exact lookupAns_removeAns_self _ _
      refine ⟨?_, ?_, ?_, ?_, ?_⟩
      · rw [hl1]
        simp [hmem]
      · intro o ho
        rw [hl1]
        simp only [Option.getD_none, List.not_mem_nil, false_iff]
        exact fun hoc => ho (hall o hoc)
      · intro q hq
        rw [h1]
        exact lookupAns_removeAns_ne _ _ _ hq
      · exact iff_of_true hl1 ⟨hmem, hall⟩
      · -- second toggle adds the option back as a fresh singleton entry
        have hcur1 : (lookupAns (handleOptionSelect s qId optId
            QType.multiple).userAnswers qId).getD [] = [] := by rw [hl1]; rfl
        have hmem1 : optId ∉ (lookupAns (handleOptionSelect s qId optId
            QType.multiple).userAnswers qId).getD [] := by
          rw [hcur1]; exact List.not_mem_nil _
        have h2 := hos_mult_append _ qId optId hact1 hmem1
        rw [hcur1] at h2
        intro q
        by_cases hq : q = qId
        · subst hq
          rw [h2, lookupAns_setAns_self]
          conv_rhs => rw [hsome]
          simp only [List.nil_append, Option.map_some']
          congr 1
          ext x
          simp only [List.mem_toFinset, List.mem_singleton]
          exact ⟨fun hx => hx ▸ hmem, fun hx => hall x hx⟩
        · rw [h2, lookupAns_setAns_ne _ _ _ _ hq, h1,
            lookupAns_removeAns_ne _ _ _ hq]
    · -- some other element stays: the entry is filtered in place
      have h1 := hos_mult_filter s qId optId hact hmem hfil
      have hl1 : lookupAns (handleOptionSelect s qId optId
          QType.multiple).userAnswers qId
          = some (((lookupAns s.userAnswers qId).getD []).filter
            (fun i => i != optId)) := by
        rw [h1]; exact lookupAns_setAns_self _ _ _
      refine ⟨?_, ?_, ?_, ?_, ?_⟩
      · rw [hl1]
        simp [hmem, List.mem_filter]
      · intro o ho
        rw [hl1]
        simp only [Option.getD_some, List.mem_filter, bne_iff_ne, ne_eq]
        exact ⟨fun h => h.1, fun h => ⟨h, ho⟩⟩
      · intro q hq
        rw [h1]
        exact lookupAns_setAns_ne _ _ _ _ hq
      · refine iff_of_false (by rw [hl1]; exact Option.some_ne_none _) ?_
        rintro ⟨-, hall⟩
        exact hfil (List.filter_eq_nil_iff.mpr (fun o ho => by
          simp only [bne_iff_ne, ne_eq, not_not]
          exact hall o ho))
      · -- second toggle appends the option back; same element set as before
        have hcur1 : (lookupAns (handleOptionSelect s qId optId
            QType.multiple).userAnswers qId).getD []
            = ((lookupAns s.userAnswers qId).getD []).filter
              (fun i => i != optId) := by rw [hl1]; rfl
        have hmem1 : optId ∉ (lookupAns (handleOptionSelect s qId optId
            QType.multiple).userAnswers qId).getD [] := by
          rw [hcur1]
          simp [List.mem_filter]
        have h2 := hos_mult_append _ qId optId hact1 hmem1
        rw [hcur1] at h2
        intro q
        by_cases hq : q = qId
        · subst hq
          rw [h2, lookupAns_setAns_self]
          conv_rhs => rw [hsome]
          simp only [Option.map_some']
          congr 1
          ext x
          simp only [List.mem_toFinset, List.mem_append, List.mem_filter,
            List.mem_singleton, bne_iff_ne, ne_eq]
          constructor
          · rintro (⟨hx, -⟩ | rfl)
            · exact hx
            · exact hmem
          · intro hx
            by_cases hxo : x = optId
            · exact Or.inr hxo
            · exact Or.inl ⟨hx, hxo⟩
        · rw [h2, lookupAns_setAns_ne _ _ _ _ hq, h1,
            lookupAns_setAns_ne _ _ _ _ hq]
  · -- option not selected yet: appended to the current selection
    have h1 := hos_mult_append s qId optId hact hmem
    have hl1 : lookupAns (handleOptionSelect s qId optId
        QType.multiple).userAnswers qId
        = some (((lookupAns s.userAnswers qId).getD []) ++ [optId]) := by
      rw [h1]; exact lookupAns_setAns_self _ _ _
    refine ⟨?_, ?_, ?_, ?_, ?_⟩
    · rw [hl1]
      simp [hmem]
    · intro o ho
      rw [hl1]
      simp only [Option.getD_some, List.mem_append, List.mem_singleton]
      exact ⟨fun h => h.resolve_right ho, fun h => Or.inl h⟩
    · intro q hq
      rw [h1]
      exact lookupAns_setAns_ne _ _ _ _ hq
    · exact iff_of_false (by rw [hl1]; exact Option.some_ne_none _)
        (fun h => hmem h.1)
    · -- second toggle removes exactly the appended option
      have hcur1 : (lookupAns (handleOptionSelect s qId optId
          QType.multiple).userAnswers qId).getD []
          = ((lookupAns s.userAnswers qId).getD []) ++ [optId] := by
        rw [hl1]; rfl
      have hmem1 : optId ∈ (lookupAns (handleOptionSelect s qId optId
          QType.multiple).userAnswers qId).getD [] := by
        rw [hcur1]
        simp
      have hfil1 : ((lookupAns (handleOptionSelect s qId optId
          QType.multiple).userAnswers qId).getD []).filter
            (fun i => i != optId)
          = (lookupAns s.userAnswers qId).getD [] := by
        rw [hcur1, List.filter_append]
        have hself : ((lookupAns s.userAnswers qId).getD []).filter
            (fun i => i != optId) = (lookupAns s.userAnswers qId).getD [] :=
          List.filter_eq_self.mpr (fun a ha => by
            simp only [bne_iff_ne, ne_eq, decide_eq_true_eq]
            exact fun h => hmem (h ▸ ha))
        rw [hself]
        simp
      by_cases hnil : (lookupAns s.userAnswers qId).getD [] = []
      · -- the entry did not exist before; it is removed again
        have hnone : lookupAns s.userAnswers qId = none := by
          rcases lookupAns_cases s.userAnswers qId with h | h
          · exact h
          · rw [hnil] at h
            exact absurd rfl (hne qId [] h)
        have h2 := hos_mult_remove _ qId optId hact1 hmem1
          (by rw [hfil1, hnil])
        intro q
        by_cases hq : q = qId
        · subst hq
          rw [h2, lookupAns_removeAns_self, hnone]
        · rw [h2, lookupAns_removeAns_ne _ _ _ hq, h1,
            lookupAns_setAns_ne _ _ _ _ hq]
      · -- the entry existed before and is restored verbatim
        have hsome : lookupAns s.userAnswers qId
            = some ((lookupAns s.userAnswers qId).getD []) := by
          rcases lookupAns_cases s.userAnswers qId with h | h
          · rw [h] at hnil
            exact absurd rfl hnil
          · exact h
        have h2 := hos_mult_filter _ qId optId hact1 hmem1
          (by rw [hfil1]; exact hnil)
        rw [hfil1] at h2
        intro q
        by_cases hq : q = qId
        · subst hq
          rw [h2, lookupAns_setAns_self, hsome]
          rfl
        · rw [h2, lookupAns_setAns_ne _ _ _ _ hq, h1,
            lookupAns_setAns_ne _ _ _ _ hq]

/-- An active session over `exam2` in which only question 2 is answered,
with the single option `"A"`. -/
def sessionMulEx : Session := { sessionEx with userAnswers := [(2, ["A"])] }

/-- Witness for C3: toggling option `"A"` of question 2 twice on
`sessionMulEx` restores the stored answer set. -/
theorem handleOptionSelect_multiple_toggle_witness :
    sessionMulEx.isReviewMode = false ∧
    (lookupAns (handleOptionSelect (handleOptionSelect sessionMulEx 2 "A"
        QType.multiple) 2 "A" QType.multiple).userAnswers 2).map List.toFinset
      = (lookupAns sessionMulEx.userAnswers 2).map List.toFinset := by
  have hne : ∀ q l, lookupAns sessionMulEx.userAnswers q = some l → l ≠ [] := by
    intro q l h
    by_cases hq : q = 2
    · subst hq
      have h2 : lookupAns sessionMulEx.userAnswers 2 = some ["A"] := rfl
      rw [h2] at h
      cases h
      simp
    · have h2 : lookupAns sessionMulEx.userAnswers q = none := by
        unfold sessionMulEx sessionEx handleStartExam lookupAns
        rw [List.lookup_eq_none_iff]
        intro p hp
        simp only [List.mem_singleton] at hp
        subst hp
        simpa using hq
      rw [h2] at h
      cases h
  exact ⟨rfl,
    (handleOptionSelect_multiple_toggle sessionMulEx 2 "A" rfl hne).2.2.2.2 2⟩

/-- One `selectOption` call: the arguments the component passes to
`handleOptionSelect` (question id, option id, and that question's type,
read off the rendered question). -/
structure SelCall where
  qId : Nat
  optId : String
  ctype : QType
deriving DecidableEq

/-- Apply a sequence of `selectOption` calls to a session, in order. -/
def applyCalls (calls : List SelCall) (s : Session) : Session :=
  calls.foldl (fun acc c => handleOptionSelect acc c.qId c.optId c.ctype) s

theorem hos_review (s : Session) (qId : Nat) (optId : String) (t : QType)
    (h : s.isReviewMode = true) : handleOptionSelect s qId optId t = s := by
  unfold handleOptionSelect
  rw [if_pos h]

theorem hos_single (s : Session) (qId : Nat) (optId : String)
    (hact : s.isReviewMode = false) :
    (handleOptionSelect s qId optId QType.single).userAnswers
      = setAns s.userAnswers qId [optId] := by
  unfold handleOptionSelect
  rw [if_neg (by simp [hact])]

theorem hos_lookup_other (s : Session) (qId' : Nat) (optId : String)
    (t : QType) (q : Nat) (hq : q ≠ qId') :
    lookupAns (handleOptionSelect s qId' optId t).userAnswers q
      = lookupAns s.userAnswers q := by
  unfold handleOptionSelect
  split
  · rfl
  · cases t
    · exact lookupAns_setAns_ne _ _ _ _ hq
    · dsimp only
      split
      · split
        · exact lookupAns_removeAns_ne _ _ _ hq
        · exact lookupAns_setAns_ne _ _ _ _ hq
      · exact lookupAns_setAns_ne _ _ _ _ hq

theorem single_len_invariant (calls : List SelCall) (qId : Nat) :
    ∀ s : Session,
    (∀ c ∈ calls, c.qId = qId → c.ctype = QType.single) →
    ((lookupAns s.userAnswers qId).getD []).length ≤ 1 →
    ((lookupAns (applyCalls calls s).userAnswers qId).getD []).length ≤ 1 := by
  induction calls with
  | nil => exact fun s _ h => h
  | cons c cs ih =>
    intro s hs h
    have hstep : ((lookupAns (handleOptionSelect s c.qId c.optId
        c.ctype).userAnswers qId).getD []).length ≤ 1 := by
      by_cases hrev : s.isReviewMode = true
      · rw [hos_review _ _ _ _ hrev]
        exact h
      · have hact : s.isReviewMode = false := by
          simpa using hrev
        by_cases hq : c.qId = qId
        · have hty : c.ctype = QType.single :=
            hs c (List.mem_cons_self _ _) hq
          rw [hty, hos_single _ _ _ hact, hq, lookupAns_setAns_self]
          simp
        · rw [hos_lookup_other _ _ _ _ _ (fun hh => hq hh.symm)]
          exact h
    exact ih _ (fun c' hc' => hs c' (List.mem_cons_of_mem _ hc')) hstep

/-- C4: for an active session, selecting an option of a SINGLE question
replaces that question's stored answer with the singleton `[optionId]`
(also when the option is already selected), and consequently from a fresh
session, after any sequence of `selectOption` calls whose calls on a given
question pass type SINGLE, that question's stored answer has at most one
element. -/
theorem handleOptionSelect_single_spec (s : Session) (qId : Nat)
    (optId : String) (exam : ExamSet) (calls : List SelCall)
    (hact : s.isReviewMode = false)
    (hsingle : ∀ c ∈ calls, c.qId = qId → c.ctype = QType.single) :
    lookupAns (handleOptionSelect s qId optId QType.single).userAnswers qId
      = some [optId] ∧
    ((lookupAns (applyCalls calls (handleStartExam exam)).userAnswers
        qId).getD []).length ≤ 1 := by
  constructor
  · rw [hos_single _ _ _ hact]
    exact lookupAns_setAns_self _ _ _
  · exact single_len_invariant calls qId (handleStartExam exam) hsingle
      (by simp [handleStartExam, lookupAns, List.lookup])

/-- Witness for C4: re-selecting on a single-select question stores a
singleton, and two single-select calls on question 1 leave at most one
stored option. -/
theorem handleOptionSelect_single_spec_witness :
    sessionEx.isReviewMode = false ∧
    lookupAns (handleOptionSelect sessionEx 1 "A" QType.single).userAnswers 1
      = some ["A"] ∧
    ((lookupAns (applyCalls [⟨1, "A", QType.single⟩, ⟨1, "B", QType.single⟩]
        (handleStartExam exam2)).userAnswers 1).getD []).length ≤ 1 := by
  refine ⟨rfl, ?_, ?_⟩
  · exact (handleOptionSelect_single_spec sessionEx 1 "A" exam2 [] rfl
      (by simp)).1
  · exact (handleOptionSelect_single_spec sessionEx 1 "A" exam2
      [⟨1, "A", QType.single⟩, ⟨1, "B", QType.single⟩] rfl (by decide)).2

theorem nodup_invariant (calls : List SelCall) :
    ∀ s : Session,
    (∀ q l, lookupAns s.userAnswers q = some l → l.Nodup) →
    ∀ q l, lookupAns (applyCalls calls s).userAnswers q = some l → l.Nodup := by
  induction calls with
  | nil => exact fun s h => h
  | cons c cs ih =>
    intro s hs
    apply ih
    intro q l hl
    dsimp only at hl
    by_cases hrev : s.isReviewMode = true
    · rw [hos_review _ _ _ _ hrev] at hl
      exact hs q l hl
    · have hact : s.isReviewMode = false := by simpa using hrev
      have hcur : ((lookupAns s.userAnswers c.qId).getD []).Nodup := by
        rcases lookupAns_cases s.userAnswers c.qId with h | h
        · rw [h]; simp
        · exact hs _ _ h
      cases hty : c.ctype with
      | single =>
        rw [hty, hos_single _ _ _ hact] at hl
        by_cases hq : q = c.qId
        · subst hq
          rw [lookupAns_setAns_self] at hl
          cases hl
          simp
        · rw [lookupAns_setAns_ne _ _ _ _ hq] at hl
          exact hs _ _ hl
      | multiple =>
        rw [hty] at hl
        by_cases hmem : c.optId ∈ (lookupAns s.userAnswers c.qId).getD []
        · by_cases hfil : ((lookupAns s.userAnswers c.qId).getD []).filter
              (fun i => i != c.optId) = []
          · rw [hos_mult_remove s c.qId c.optId hact hmem hfil] at hl
            by_cases hq : q = c.qId
            · subst hq
              rw [lookupAns_removeAns_self] at hl
              cases hl
            · rw [lookupAns_removeAns_ne _ _ _ hq] at hl
              exact hs _ _ hl
          · rw [hos_mult_filter s c.qId c.optId hact hmem hfil] at hl
            by_cases hq : q = c.qId
            · subst hq
              rw [lookupAns_setAns_self] at hl
              cases hl
              exact hcur.filter _
            · rw [lookupAns_setAns_ne _ _ _ _ hq] at hl
              exact hs _ _ hl
        · rw [hos_mult_append s c.qId c.optId hact hmem] at hl
          by_cases hq : q = c.qId
          · subst hq
            rw [lookupAns_setAns_self] at hl
            cases hl
            rw [← List.concat_eq_append]
            exact hcur.concat hmem
          · rw [lookupAns_setAns_ne _ _ _ _ hq] at hl
            exact hs _ _ hl

/-- C10: starting from a fresh session, after any sequence of
`selectOption` calls every stored answer list is duplicate-free: `single`
writes a singleton, and `multiple` appends an option only when absent and
otherwise removes every occurrence. -/
theorem userAnswers_nodup (exam : ExamSet) (calls : List SelCall) (q : Nat)
    (l : List String)
    (h : lookupAns (applyCalls calls (handleStartExam exam)).userAnswers q
      = some l) : l.Nodup := by
  refine nodup_invariant calls (handleStartExam exam) ?_ q l h
  intro q' l' h'
  simp [handleStartExam, lookupAns, List.lookup] at h'

/-- Witness for C10: two multi-select calls on question 2 leave the
duplicate-free stored answer `["A", "B"]`. -/
theorem userAnswers_nodup_witness :
    lookupAns (applyCalls [⟨2, "A", QType.multiple⟩, ⟨2, "B", QType.multiple⟩]
      (handleStartExam exam2)).userAnswers 2 = some ["A", "B"] ∧
    (["A", "B"] : List String).Nodup :=
  ⟨rfl, userAnswers_nodup exam2
    [⟨2, "A", QType.multiple⟩, ⟨2, "B", QType.multiple⟩] 2 ["A", "B"] rfl⟩
